import Mathlib

/-!
Shallow embedding of the chart-math core of `src/utils.js` (a8c d3 chart
component): x-axis tick planning (`getFactors`, `calculateMaxXTicks`,
`getFirstDatePerMonth`, `getXTicksFromIncrementFactor`,
`calculateXTicksIncrementFactor`, `getXTicks`), date-span geometry
(`getDateSpaces`), y-axis maximum rounding (`getYMax`) and tooltip
positioning (`calculateTooltipXPosition`, `calculateTooltipYPosition`,
`calculateTooltipPosition`).

Modelling conventions:
* JS numbers are idealised as exact rationals (`ℚ`); array indices and
  counts are `Nat`.
* A date string is modelled abstractly as a record `DateV` carrying its
  parsed chronological value (`time`, the result of `parseDate` /
  `new Date(...).getTime()`) and the value of `new Date(...).getMonth()`
  (`month`).  The tick pipeline only ever inspects these two views.
* The `while` loop of `calculateXTicksIncrementFactor` does not terminate
  in JS for some inputs (the loop scans `length - i` downwards and
  `getFactors` of a non-positive number is `[]` forever); it is embedded
  with explicit fuel returning `Option`, `none` marking non-termination.
  `undefined` results of `Array.prototype.find` are likewise `none`.
-/

namespace A8CChart

/-- Constant `dayTicksThreshold` from the source. -/
def dayTicksThreshold : Nat := 63

/-- Constant `weekTicksThreshold` from the source. -/
def weekTicksThreshold : Nat := 9

/-- Constant `smallBreak` (px) from the source. -/
def smallBreak : ℚ := 783

/-- Constant `mediumBreak` (px) from the source. -/
def mediumBreak : ℚ := 1130

/-- Constant `wideBreak` (px) from the source. -/
def wideBreak : ℚ := 1365

/-- Constant `smallPoints` from the source. -/
def smallPoints : Nat := 7

/-- Constant `mediumPoints` from the source. -/
def mediumPoints : Nat := 12

/-- Constant `largePoints` from the source. -/
def largePoints : Nat := 16

/-- Constant `mostPoints` from the source. -/
def mostPoints : Nat := 31

/-- Abstract model of one date string: its parsed chronological value and
its `getMonth()` value.  Distinct dates are assumed to have distinct
parsed `time`s (the source's `uniqueDates` are unique date strings sorted
by parse value). -/
structure DateV where
  time : Int
  month : Nat
deriving DecidableEq

instance : Inhabited DateV := ⟨⟨0, 0⟩⟩

/-!  ### `getFactors`

```js
export const getFactors = inputNum => {
  const numFactors = [];
  for ( let i = 1; i <= Math.floor( Math.sqrt( inputNum ) ); i += 1 ) {
    if ( inputNum % i === 0 ) {
      numFactors.push( i );
      inputNum / i !== i && numFactors.push( inputNum / i );
    }
  }
  numFactors.sort( ( x, y ) => x - y ); // numeric sort
  return numFactors;
};
```

The loop over `i = 1 .. ⌊√n⌋` pushing `i` and the cofactor `n / i` is the
`flatMap` below (`Nat.sqrt` is exactly `⌊√·⌋`); the final numeric sort is
an insertion sort. -/
def getFactors (inputNum : Nat) : List Nat :=
  let numFactors := (List.range (Nat.sqrt inputNum)).flatMap fun j =>
    let i := j + 1
    if inputNum % i = 0 then
      if inputNum / i ≠ i then [i, inputNum / i] else [i]
    else []
  numFactors.insertionSort (· ≤ ·)

/-!  ### `calculateMaxXTicks`

```js
export const calculateMaxXTicks = ( width, mode ) => {
  if ( width < smallBreak ) {
    return smallPoints;
  } else if ( width >= smallBreak && width <= mediumBreak ) {
    return mediumPoints;
  } else if ( width > mediumBreak && width <= wideBreak ) {
    if ( mode === 'time-comparison' ) { return largePoints; }
    else if ( mode === 'item-comparison' ) { return mediumPoints; }
  } else if ( width > wideBreak ) {
    if ( mode === 'time-comparison' ) { return mostPoints; }
    else if ( mode === 'item-comparison' ) { return largePoints; }
  }
  return largePoints;
};
```

When an inner `if`/`else if` matches no mode, control falls through to the
final `return largePoints`, hence the inner `else` branches below. -/
def calculateMaxXTicks (width : ℚ) (mode : String) : Nat :=
  if width < smallBreak then smallPoints
  else if smallBreak ≤ width ∧ width ≤ mediumBreak then mediumPoints
  else if mediumBreak < width ∧ width ≤ wideBreak then
    if mode = "time-comparison" then largePoints
    else if mode = "item-comparison" then mediumPoints
    else largePoints
  else if wideBreak < width then
    if mode = "time-comparison" then mostPoints
    else if mode = "item-comparison" then largePoints
    else largePoints
  else largePoints

/-!  ### `getFirstDatePerMonth`

```js
export const getFirstDatePerMonth = dates => {
  return dates.filter(
    ( date, i ) => i === 0 || new Date( date ).getMonth() !== new Date( dates[ i - 1 ] ).getMonth()
  );
};
```

The indexed filter keeps the element at index `0` and every element whose
month differs from the month of its predecessor *in the input array*
(`dates[i - 1]`).  The walk below carries that array predecessor. -/
def firstDatePerMonthGo (prev : DateV) : List DateV → List DateV
  | [] => []
  | b :: bs => (if b.month ≠ prev.month then [b] else []) ++ firstDatePerMonthGo b bs

def getFirstDatePerMonth (dates : List DateV) : List DateV :=
  match dates with
  | [] => []
  | a :: rest => a :: firstDatePerMonthGo a rest

/-!  ### `getXTicksFromIncrementFactor`

```js
export const getXTicksFromIncrementFactor = ( uniqueDates, incrementFactor ) => {
  const ticks = [];
  for ( let idx = 0; idx < uniqueDates.length; idx = idx + incrementFactor ) {
    ticks.push( uniqueDates[ idx ] );
  }
  // If the first date is missing from the ticks array, add it back in.
  if ( ticks[ 0 ] !== uniqueDates[ 0 ] ) {
    ticks.unshift( uniqueDates[ 0 ] );
  }
  return ticks;
};
```

The loop visits indices `0, f, 2f, ...`; each step takes the head and
drops the next `f - 1` elements.  Each step consumes at least one element
when `f ≥ 1`, so fuel `uniqueDates.length` is exact (the factor produced
by `calculateXTicksIncrementFactor` is a divisor, hence `≥ 1`). -/
def strideAux : Nat → List DateV → Nat → List DateV
  | 0, _, _ => []
  | _, [], _ => []
  | fuel + 1, d :: rest, f => d :: strideAux fuel (rest.drop (f - 1)) f

def getXTicksFromIncrementFactor (uniqueDates : List DateV) (incrementFactor : Nat) :
    List DateV :=
  let ticks := strideAux uniqueDates.length uniqueDates incrementFactor
  -- strict string inequality `ticks[0] !== uniqueDates[0]` on (possibly
  -- absent) first elements
  if ticks.head? ≠ uniqueDates.head? then uniqueDates.take 1 ++ ticks else ticks

/-!  ### `calculateXTicksIncrementFactor`

```js
export const calculateXTicksIncrementFactor = ( uniqueDates, maxTicks ) => {
  let factors = [];
  let i = 1;
  while ( factors.length <= 3 ) {
    factors = getFactors( uniqueDates.length - i );
    i += 1;
  }
  return factors.find( f => uniqueDates.length / f < maxTicks );
};
```

The loop body always runs first (`[]` has length `0 ≤ 3`): it computes
`getFactors (length - i)` for `i = 1, 2, ...` until the factor list has
more than `3` entries.  In JS `length - i` becomes negative and
`getFactors` of it stays `[]`, an infinite loop; natural subtraction
bottoms out at `0` with `getFactors 0 = []`, the same non-terminating
state, which the fuel turns into `none`.

`uniqueDates.length / f < maxTicks` is exact real division; for `f ≥ 1`
it is equivalent to `uniqueDates.length < maxTicks * f`, and for `f = 0`
both sides are false (`len / 0` is `Infinity` in JS, never below
`maxTicks`). -/
def incrementFactorLoop : Nat → Nat → Nat → Option (List Nat)
  | 0, _, _ => none
  | fuel + 1, len, i =>
    let factors := getFactors (len - i)
    if 3 < factors.length then some factors
    else incrementFactorLoop fuel len (i + 1)

def calculateXTicksIncrementFactor (uniqueDates : List DateV) (maxTicks : Nat) :
    Option Nat :=
  match incrementFactorLoop uniqueDates.length uniqueDates.length 1 with
  | none => none
  | some factors => factors.find? fun f => uniqueDates.length < maxTicks * f

/-!  ### `getXTicks`

```js
export const getXTicks = ( uniqueDates, width, mode, interval ) => {
  const maxTicks = calculateMaxXTicks( width, mode );
  if (
    ( uniqueDates.length >= dayTicksThreshold && interval === 'day' ) ||
    ( uniqueDates.length >= weekTicksThreshold && interval === 'week' )
  ) {
    uniqueDates = getFirstDatePerMonth( uniqueDates );
  }
  if ( uniqueDates.length <= maxTicks ) {
    return uniqueDates;
  }
  const incrementFactor = calculateXTicksIncrementFactor( uniqueDates, maxTicks );
  return getXTicksFromIncrementFactor( uniqueDates, incrementFactor );
};
```

If `calculateXTicksIncrementFactor` returned `undefined`, the stride loop
index would become `NaN` after the first push and the loop would stop,
yielding just `[uniqueDates[0]]`; the `none` branch mirrors that.  (The
branch is unreachable: `maxTicks ≥ 7` always, see `seven_le_calculateMaxXTicks`.) -/
def getXTicks (uniqueDates : List DateV) (width : ℚ) (mode interval : String) :
    List DateV :=
  let maxTicks := calculateMaxXTicks width mode
  let uniqueDates2 :=
    if (dayTicksThreshold ≤ uniqueDates.length ∧ interval = "day")
        ∨ (weekTicksThreshold ≤ uniqueDates.length ∧ interval = "week") then
      getFirstDatePerMonth uniqueDates
    else uniqueDates
  if uniqueDates2.length ≤ maxTicks then uniqueDates2
  else
    match calculateXTicksIncrementFactor uniqueDates2 maxTicks with
    | some incrementFactor => getXTicksFromIncrementFactor uniqueDates2 incrementFactor
    | none => uniqueDates2.take 1

/-!  ## Lemmas about `getFactors` -/

theorem sorted_getFactors (n : Nat) : (getFactors n).Sorted (· ≤ ·) :=
  List.sorted_insertionSort _ _

/-- `getFactors n` contains exactly the positive divisors of `n` (for positive `n`). -/
theorem mem_getFactors {n : Nat} (hn : 0 < n) (a : Nat) :
    a ∈ getFactors n ↔ 0 < a ∧ a ∣ n := by
  unfold getFactors
  rw [List.mem_insertionSort, List.mem_flatMap]
  constructor
  · rintro ⟨j, hj, ha⟩
    rw [List.mem_range] at hj
    by_cases hmod : n % (j + 1) = 0
    · have hdvd : (j + 1) ∣ n := Nat.dvd_of_mod_eq_zero hmod
      have hle : j + 1 ≤ n := Nat.le_of_dvd hn hdvd
      simp only [hmod, if_pos rfl, if_true] at ha
      by_cases hne : n / (j + 1) ≠ j + 1
      · rw [if_pos hne] at ha
        simp only [List.mem_cons, List.mem_singleton, List.not_mem_nil, or_false] at ha
        rcases ha with rfl | rfl
        · exact ⟨Nat.succ_pos j, hdvd⟩
        · exact ⟨Nat.div_pos hle (Nat.succ_pos j), Nat.div_dvd_of_dvd hdvd⟩
      · rw [if_neg hne] at ha
        simp only [List.mem_singleton] at ha
        subst ha
        exact ⟨Nat.succ_pos j, hdvd⟩
    · simp [hmod] at ha
  · rintro ⟨ha0, hdvd⟩
    by_cases hsq : a ≤ Nat.sqrt n
    · refine ⟨a - 1, List.mem_range.mpr (by omega), ?_⟩
      have h1 : a - 1 + 1 = a := by omega
      rw [h1, if_pos (Nat.mod_eq_zero_of_dvd hdvd)]
      by_cases hne : n / a ≠ a
      · rw [if_pos hne]; exact List.mem_cons_self _ _
      · rw [if_neg hne]; exact List.mem_singleton.mpr rfl
    · push_neg at hsq
      set b := n / a with hb
      have hab : a * b = n := Nat.mul_div_cancel' hdvd
      have hb0 : 0 < b := by
        rcases Nat.eq_zero_or_pos b with h | h
        · rw [h, Nat.mul_zero] at hab; omega
        · exact h
      have hbsq : b ≤ Nat.sqrt n := by
        by_contra hbs
        push_neg at hbs
        have h1 : Nat.sqrt n + 1 ≤ a := hsq
        have h2 : Nat.sqrt n + 1 ≤ b := hbs
        have h3 : (Nat.sqrt n + 1) * (Nat.sqrt n + 1) ≤ a * b :=
          Nat.mul_le_mul h1 h2
        have h4 : n < (Nat.sqrt n + 1) * (Nat.sqrt n + 1) := Nat.lt_succ_sqrt n
        omega
      refine ⟨b - 1, List.mem_range.mpr (by omega), ?_⟩
      have h1 : b - 1 + 1 = b := by omega
      have hbdvd : b ∣ n := ⟨a, by rw [← hab, Nat.mul_comm]⟩
      have hdivb : n / b = a := by
        rw [← hab, Nat.mul_div_cancel _ hb0]
      rw [h1, if_pos (Nat.mod_eq_zero_of_dvd hbdvd), hdivb]
      have hne : a ≠ b := by
        intro h
        rw [h] at hsq; omega
      rw [if_pos hne]
      exact List.mem_cons_of_mem _ (List.mem_singleton.mpr rfl)

/-- In a `≤`-sorted list, `find?` returns a least element satisfying the
predicate. -/
theorem sorted_find?_le {l : List Nat} {p : Nat → Bool} {f g : Nat}
    (hs : l.Sorted (· ≤ ·)) (hf : l.find? p = some f) (hg : g ∈ l)
    (hpg : p g = true) : f ≤ g := by
  induction l with
  | nil => cases hf
  | cons a t ih =>
    by_cases hpa : p a = true
    · rw [List.find?_cons_of_pos _ hpa] at hf
      obtain rfl : a = f := by injection hf
      rcases List.mem_cons.mp hg with rfl | hg
      · exact le_refl _
      · exact List.rel_of_sorted_cons hs _ hg
    · rw [List.find?_cons_of_neg _ (by simpa using hpa)] at hf
      rcases List.mem_cons.mp hg with rfl | hg
      · exact absurd hpg hpa
      · exact ih hs.of_cons hf hg

/-- Any even number `≥ 6` has more than 3 divisors: `1, 2, n/2, n` are
four distinct entries of `getFactors`. -/
theorem four_le_getFactors_length {n : Nat} (h6 : 6 ≤ n) (h2 : 2 ∣ n) :
    4 ≤ (getFactors n).length := by
  have hn : 0 < n := by omega
  have hhalf : 3 ≤ n / 2 := by omega
  have hhalf' : n / 2 < n := Nat.div_lt_self hn (by norm_num)
  have m1 : (1 : Nat) ∈ getFactors n := (mem_getFactors hn 1).mpr ⟨one_pos, one_dvd n⟩
  have m2 : (2 : Nat) ∈ getFactors n := (mem_getFactors hn 2).mpr ⟨by norm_num, h2⟩
  have m3 : n / 2 ∈ getFactors n :=
    (mem_getFactors hn _).mpr ⟨by omega, Nat.div_dvd_of_dvd h2⟩
  have m4 : n ∈ getFactors n := (mem_getFactors hn n).mpr ⟨hn, dvd_refl n⟩
  have hsub : ({1, 2, n / 2, n} : Finset Nat) ⊆ (getFactors n).toFinset := by
    intro x hx
    simp only [Finset.mem_insert, Finset.mem_singleton] at hx
    rcases hx with rfl | rfl | rfl | rfl <;> exact List.mem_toFinset.mpr (by assumption)
  have hcard : ({1, 2, n / 2, n} : Finset Nat).card = 4 := by
    rw [Finset.card_insert_of_not_mem (by simp; omega),
      Finset.card_insert_of_not_mem (by simp; omega),
      Finset.card_insert_of_not_mem (by simp; omega), Finset.card_singleton]
  calc 4 = ({1, 2, n / 2, n} : Finset Nat).card := hcard.symm
    _ ≤ (getFactors n).toFinset.card := Finset.card_le_card hsub
    _ ≤ (getFactors n).length := List.toFinset_card_le _

/-!  ## Lemmas about the increment-factor loop -/

/-- `calculateMaxXTicks` only ever returns 7, 12, 16 or 31. -/
theorem seven_le_calculateMaxXTicks (width : ℚ) (mode : String) :
    7 ≤ calculateMaxXTicks width mode := by
  unfold calculateMaxXTicks smallPoints mediumPoints largePoints mostPoints
  split_ifs <;> omega

/-- For `len ≥ 7` the loop stops at `len - 1` or `len - 2`: an even number
`≥ 6` always has more than 3 divisors, and one of `len - 1`, `len - 2` is
even and `≥ 6`. -/
theorem incrementFactorLoop_eq (len fuel : Nat) (h7 : 7 ≤ len) (hf : 2 ≤ fuel) :
    (3 < (getFactors (len - 1)).length ∧
      incrementFactorLoop fuel len 1 = some (getFactors (len - 1))) ∨
    ((getFactors (len - 1)).length ≤ 3 ∧ 3 < (getFactors (len - 2)).length ∧
      incrementFactorLoop fuel len 1 = some (getFactors (len - 2))) := by
  obtain ⟨k, rfl⟩ : ∃ k, fuel = k + 1 + 1 := ⟨fuel - 2, by omega⟩
  by_cases h1 : 3 < (getFactors (len - 1)).length
  · left
    exact ⟨h1, by rw [incrementFactorLoop]; simp only [h1, if_pos]⟩
  · right
    have hodd : ¬2 ∣ (len - 1) := by
      intro h2
      exact h1 (lt_of_lt_of_le (by norm_num) (four_le_getFactors_length (by omega) h2))
    have heven : 2 ∣ (len - 2) := by omega
    have h8 : 8 ≤ len := by omega
    have h2 : 3 < (getFactors (len - 2)).length :=
      lt_of_lt_of_le (by norm_num) (four_le_getFactors_length (by omega) heven)
    refine ⟨by omega, h2, ?_⟩
    rw [incrementFactorLoop]
    simp only [h1, if_neg, if_false]
    rw [incrementFactorLoop]
    have : len - (1 + 1) = len - 2 := by omega
    simp only [this, h2, if_pos]

/-- Whenever the loop result is reachable with `maxTicks ≥ 2` and at least
7 dates, `calculateXTicksIncrementFactor` succeeds and returns the least
factor `f` of the scanned number with `len / f < maxTicks` (as
`len < maxTicks * f`). -/
theorem calculateXTicksIncrementFactor_exists (l : List DateV) (maxTicks : Nat)
    (hm : 2 ≤ maxTicks) (h7 : 7 ≤ l.length) :
    ∃ i f, 1 ≤ i ∧ i ≤ 2 ∧
      (∀ j, 1 ≤ j → j < i → (getFactors (l.length - j)).length ≤ 3) ∧
      3 < (getFactors (l.length - i)).length ∧
      calculateXTicksIncrementFactor l maxTicks = some f ∧
      f ∈ getFactors (l.length - i) ∧
      l.length < maxTicks * f ∧
      (∀ g, g ∈ getFactors (l.length - i) → l.length < maxTicks * g → f ≤ g) := by
  have hfuel : 2 ≤ l.length := by omega
  have key : ∀ i, 1 ≤ i → i ≤ 2 → 3 < (getFactors (l.length - i)).length →
      incrementFactorLoop l.length l.length 1 = some (getFactors (l.length - i)) →
      (∀ j, 1 ≤ j → j < i → (getFactors (l.length - j)).length ≤ 3) →
      ∃ i' f, 1 ≤ i' ∧ i' ≤ 2 ∧
        (∀ j, 1 ≤ j → j < i' → (getFactors (l.length - j)).length ≤ 3) ∧
        3 < (getFactors (l.length - i')).length ∧
        calculateXTicksIncrementFactor l maxTicks = some f ∧
        f ∈ getFactors (l.length - i') ∧
        l.length < maxTicks * f ∧
        (∀ g, g ∈ getFactors (l.length - i') → l.length < maxTicks * g → f ≤ g) := by
    intro i hi1 hi2 hlen hloop hprev
    set N := l.length - i with hN
    have hN0 : 0 < N := by
      by_contra h
      push_neg at h
      interval_cases N
      · simp [getFactors] at hlen
    have hNin : N ∈ getFactors N := (mem_getFactors hN0 N).mpr ⟨hN0, dvd_refl N⟩
    have hNpred : l.length < maxTicks * N := by
      have h5 : l.length - 2 ≤ N := by omega
      have : 2 * (l.length - 2) ≥ l.length + 1 := by omega
      calc l.length < 2 * (l.length - 2) := by omega
        _ ≤ maxTicks * N := Nat.mul_le_mul hm h5
    have hsome : (getFactors N).find? (fun f => decide (l.length < maxTicks * f)) ≠ none := by
      intro hnone
      rw [List.find?_eq_none] at hnone
      exact hnone N hNin (by simpa using hNpred)
    obtain ⟨f, hfind⟩ := Option.ne_none_iff_exists'.mp hsome
    refine ⟨i, f, hi1, hi2, hprev, hlen, ?_, List.mem_of_find?_eq_some hfind, ?_, ?_⟩
    · unfold calculateXTicksIncrementFactor
      rw [hloop]
      exact hfind
    · simpa using List.find?_some hfind
    · intro g hg hpg
      exact sorted_find?_le (sorted_getFactors N) hfind hg (by simpa using hpg)
  rcases incrementFactorLoop_eq l.length l.length h7 hfuel with ⟨h1, hloop⟩ | ⟨h1, h2, hloop⟩
  · exact key 1 le_rfl (by omega) h1 hloop (by omega)
  · exact key 2 (by omega) le_rfl h2 hloop (by intro j hj1 hj2; interval_cases j; exact h1)

/-!  ## Lemmas about the stride and the month collapse -/

theorem strideAux_sublist : ∀ (fuel : Nat) (l : List DateV) (f : Nat),
    (strideAux fuel l f).Sublist l
  | 0, _, _ => by simp [strideAux]
  | _ + 1, [], _ => by simp [strideAux]
  | fuel + 1, d :: rest, f => by
    rw [strideAux]
    exact List.Sublist.cons₂ d
      ((strideAux_sublist fuel (rest.drop (f - 1)) f).trans (List.drop_sublist _ _))

theorem strideAux_head (fuel : Nat) (d : DateV) (rest : List DateV) (f : Nat) :
    (strideAux (fuel + 1) (d :: rest) f).head? = some d := by
  rw [strideAux]; rfl

/-- Exact tick count of the stride: `⌈len / f⌉` for a positive factor. -/
theorem strideAux_length : ∀ (fuel : Nat) (l : List DateV) (f : Nat), 0 < f →
    l.length ≤ fuel → (strideAux fuel l f).length = (l.length + (f - 1)) / f
  | 0, l, f, hf, hfuel => by
    have : l = [] := List.eq_nil_of_length_eq_zero (by omega)
    subst this
    simp [strideAux, Nat.div_eq_of_lt (show f - 1 < f by omega)]
  | fuel + 1, [], f, hf, _ => by
    simp [strideAux, Nat.div_eq_of_lt (show f - 1 < f by omega)]
  | fuel + 1, d :: rest, f, hf, hfuel => by
    rw [strideAux]
    have hdl : (rest.drop (f - 1)).length = rest.length - (f - 1) := List.length_drop _ _
    have ih := strideAux_length fuel (rest.drop (f - 1)) f hf
      (by rw [hdl]; simp only [List.length_cons] at hfuel; omega)
    simp only [List.length_cons]
    rw [ih, hdl]
    rcases Nat.le_total (f - 1) rest.length with hc | hc
    · have h1 : rest.length - (f - 1) + (f - 1) = rest.length := by omega
      have h2 : rest.length + 1 + (f - 1) = rest.length + f := by omega
      rw [h1, h2, Nat.add_div_right _ hf]
    · have h1 : rest.length - (f - 1) = 0 := by omega
      have h2 : rest.length + 1 + (f - 1) = rest.length + f := by omega
      rw [h1, h2, Nat.zero_add, Nat.div_eq_of_lt (show f - 1 < f by omega),
        Nat.add_div_right _ hf, Nat.div_eq_of_lt (show rest.length < f by omega)]

/-- With a nonempty input the re-insertion branch of
`getXTicksFromIncrementFactor` is dead: the stride always starts with the
first date. -/
theorem getXTicksFromIncrementFactor_eq (l : List DateV) (f : Nat) (hne : l ≠ []) :
    getXTicksFromIncrementFactor l f = strideAux l.length l f := by
  obtain ⟨d, rest, rfl⟩ := List.exists_cons_of_ne_nil hne
  unfold getXTicksFromIncrementFactor
  simp only [List.length_cons, strideAux_head, List.head?_cons]
  rw [if_neg (fun h => h rfl)]

theorem firstDatePerMonthGo_sublist : ∀ (prev : DateV) (l : List DateV),
    (firstDatePerMonthGo prev l).Sublist l
  | _, [] => List.nil_sublist _
  | prev, b :: bs => by
    rw [firstDatePerMonthGo]
    by_cases h : b.month ≠ prev.month
    · rw [if_pos h]
      exact List.Sublist.cons₂ b (firstDatePerMonthGo_sublist b bs)
    · rw [if_neg h, List.nil_append]
      exact List.Sublist.cons b (firstDatePerMonthGo_sublist b bs)

theorem getFirstDatePerMonth_sublist (l : List DateV) :
    (getFirstDatePerMonth l).Sublist l := by
  cases l with
  | nil => exact List.nil_sublist _
  | cons a rest =>
    rw [getFirstDatePerMonth]
    exact List.Sublist.cons₂ a (firstDatePerMonthGo_sublist a rest)

theorem getFirstDatePerMonth_head (a : DateV) (rest : List DateV) :
    (getFirstDatePerMonth (a :: rest)).head? = some a := by
  rw [getFirstDatePerMonth]; rfl

theorem getFactors_zero : getFactors 0 = [] := by
  simp [getFactors, Nat.sqrt_zero]

theorem strideAux_head_ne (l : List DateV) (f : Nat) (hne : l ≠ []) :
    (strideAux l.length l f).head? = l.head? := by
  obtain ⟨d, rest, rfl⟩ := List.exists_cons_of_ne_nil hne
  rw [List.length_cons, strideAux_head, List.head?_cons]

/-!  ## Claim theorems: tick planning -/

/-- Claim C1: for every non-empty `uniqueDates` (sorted strictly ascending
by parsed date) and every width, mode and interval, `getXTicks` returns at
most `calculateMaxXTicks width mode` ticks, the ticks are a (strictly
increasing) sublist of the input dates, and the first input date is the
first tick. -/
theorem getXTicks_spec (l : List DateV) (width : ℚ) (mode interval : String)
    (hne : l ≠ []) (hsorted : l.Sorted (fun a b => a.time < b.time)) :
    (getXTicks l width mode interval).length ≤ calculateMaxXTicks width mode ∧
    (getXTicks l width mode interval).Sublist l ∧
    (getXTicks l width mode interval).Sorted (fun a b => a.time < b.time) ∧
    (getXTicks l width mode interval).head? = l.head? := by
  have h7 : 7 ≤ calculateMaxXTicks width mode := seven_le_calculateMaxXTicks width mode
  obtain ⟨d0, rest0, rfl⟩ := List.exists_cons_of_ne_nil hne
  simp only [getXTicks]
  set l0 : List DateV := d0 :: rest0 with hl0
  set maxTicks := calculateMaxXTicks width mode with hmt
  set l2 := if (dayTicksThreshold ≤ l0.length ∧ interval = "day")
      ∨ (weekTicksThreshold ≤ l0.length ∧ interval = "week") then
    getFirstDatePerMonth l0 else l0 with hl2
  have hsub2 : l2.Sublist l0 := by
    rw [hl2]
    split_ifs
    · exact getFirstDatePerMonth_sublist l0
    · exact List.Sublist.refl l0
  have hhead2 : l2.head? = l0.head? := by
    rw [hl2]
    split_ifs
    · rw [hl0, getFirstDatePerMonth_head, List.head?_cons]
    · rfl
  have hne2 : l2 ≠ [] := by
    intro h
    rw [h, hl0, List.head?_cons] at hhead2
    cases hhead2
  have hsorted2 : l2.Sorted (fun a b => a.time < b.time) :=
    List.Pairwise.sublist hsub2 hsorted
  by_cases hle : l2.length ≤ maxTicks
  · rw [if_pos hle]
    exact ⟨hle, hsub2, hsorted2, hhead2⟩
  · rw [if_neg hle]
    push_neg at hle
    have h7l : 7 ≤ l2.length := by omega
    obtain ⟨i, f, hi1, hi2, hprev, hNlen, hcalc, hfmem, hflt, hmin⟩ :=
      calculateXTicksIncrementFactor_exists l2 maxTicks (by omega) h7l
    have hN0 : 0 < l2.length - i := by
      by_contra hc
      push_neg at hc
      have : l2.length - i = 0 := by omega
      rw [this, getFactors_zero] at hNlen
      simp at hNlen
    have hf0 : 0 < f := ((mem_getFactors hN0 f).mp hfmem).1
    rw [hcalc]
    show (getXTicksFromIncrementFactor l2 f).length ≤ maxTicks ∧
      (getXTicksFromIncrementFactor l2 f).Sublist l0 ∧
      (getXTicksFromIncrementFactor l2 f).Sorted (fun a b => a.time < b.time) ∧
      (getXTicksFromIncrementFactor l2 f).head? = l0.head?
    rw [getXTicksFromIncrementFactor_eq l2 f hne2]
    have hsubS : (strideAux l2.length l2 f).Sublist l2 := strideAux_sublist _ _ _
    refine ⟨?_, hsubS.trans hsub2, List.Pairwise.sublist hsubS hsorted2, ?_⟩
    · rw [strideAux_length l2.length l2 f hf0 le_rfl]
      have hA : l2.length + (f - 1) < maxTicks * f + f := by omega
      have : (l2.length + (f - 1)) / f < maxTicks + 1 := by
        rw [Nat.div_lt_iff_lt_mul hf0]
        calc l2.length + (f - 1) < maxTicks * f + f := hA
          _ = (maxTicks + 1) * f := by ring
      omega
    · rw [strideAux_head_ne l2 f hne2, hhead2]

/-- Witness for C1 at a concrete input. -/
theorem getXTicks_spec_witness :
    ([⟨0, 0⟩, ⟨1, 0⟩, ⟨2, 0⟩] : List DateV) ≠ [] ∧
    ([⟨0, 0⟩, ⟨1, 0⟩, ⟨2, 0⟩] : List DateV).Sorted (fun a b => a.time < b.time) ∧
    ((getXTicks [⟨0, 0⟩, ⟨1, 0⟩, ⟨2, 0⟩] 100 "time-comparison" "hour").length ≤
        calculateMaxXTicks 100 "time-comparison" ∧
      (getXTicks [⟨0, 0⟩, ⟨1, 0⟩, ⟨2, 0⟩] 100 "time-comparison" "hour").Sublist
        [⟨0, 0⟩, ⟨1, 0⟩, ⟨2, 0⟩] ∧
      (getXTicks [⟨0, 0⟩, ⟨1, 0⟩, ⟨2, 0⟩] 100 "time-comparison" "hour").Sorted
        (fun a b => a.time < b.time) ∧
      (getXTicks [⟨0, 0⟩, ⟨1, 0⟩, ⟨2, 0⟩] 100 "time-comparison" "hour").head? =
        ([⟨0, 0⟩, ⟨1, 0⟩, ⟨2, 0⟩] : List DateV).head?) :=
  ⟨by decide, by decide,
    getXTicks_spec [⟨0, 0⟩, ⟨1, 0⟩, ⟨2, 0⟩] 100 "time-comparison" "hour"
      (by decide) (by decide)⟩

theorem sqrt_six : Nat.sqrt 6 = 2 := by
  have h1 : 2 ≤ Nat.sqrt 6 := Nat.le_sqrt.mpr (by norm_num)
  have h2 : Nat.sqrt 6 < 3 := Nat.sqrt_lt.mpr (by norm_num)
  omega

theorem getFactors_six : getFactors 6 = [1, 2, 3, 6] := by
  simp only [getFactors, sqrt_six]
  decide

/-- Claim C2, as frozen, fails at 7 dates with `maxTicks = 1`: the scanned
number is `6` (more than 3 divisors) but no divisor `f` of `6` satisfies
`7 / f < 1`, so `Array.prototype.find` returns `undefined` (`none`), not
the claimed smallest such divisor. -/
theorem calculateXTicksIncrementFactor_claim_cex :
    (1 : Nat) < ([⟨0, 0⟩, ⟨1, 0⟩, ⟨2, 0⟩, ⟨3, 0⟩, ⟨4, 0⟩, ⟨5, 0⟩, ⟨6, 0⟩] :
        List DateV).length ∧
    calculateXTicksIncrementFactor
      [⟨0, 0⟩, ⟨1, 0⟩, ⟨2, 0⟩, ⟨3, 0⟩, ⟨4, 0⟩, ⟨5, 0⟩, ⟨6, 0⟩] 1 = none ∧
    ∀ g ∈ getFactors 6, ¬(7 < 1 * g) := by
  refine ⟨by decide, ?_, by rw [getFactors_six]; decide⟩
  have hloop : incrementFactorLoop 7 7 1 = some (getFactors 6) := by
    rcases incrementFactorLoop_eq 7 7 (by norm_num) (by norm_num)
      with ⟨h1, hl⟩ | ⟨h1, h2, hl⟩
    · exact hl
    · rw [show (7 : Nat) - 1 = 6 from rfl, getFactors_six] at h1
      simp at h1
  have hloop' : incrementFactorLoop 7 7 1 = some [1, 2, 3, 6] := by
    rw [hloop, getFactors_six]
  unfold calculateXTicksIncrementFactor
  norm_num
  rw [hloop']
  decide

/-- Claim C2 (amended: the input must have at least 7 dates and
`2 ≤ maxTicks`, otherwise the loop diverges or `find` fails, see the
counterexample): `calculateXTicksIncrementFactor` scans `length - i` for
`i = 1, 2, ...` until it finds a number with more than 3 divisors, and
returns the smallest divisor `f` of that number with
`length / f < maxTicks` (equivalently `length < maxTicks * f`). -/
theorem calculateXTicksIncrementFactor_formula (l : List DateV) (maxTicks : Nat)
    (h7 : 7 ≤ l.length) (hm : 2 ≤ maxTicks) (_hlt : maxTicks < l.length) :
    ∃ i f, 1 ≤ i ∧
      (∀ j, 1 ≤ j → j < i → (getFactors (l.length - j)).length ≤ 3) ∧
      3 < (getFactors (l.length - i)).length ∧
      calculateXTicksIncrementFactor l maxTicks = some f ∧
      0 < f ∧ f ∣ (l.length - i) ∧
      l.length < maxTicks * f ∧
      ∀ g, 0 < g → g ∣ (l.length - i) → l.length < maxTicks * g → f ≤ g := by
  obtain ⟨i, f, hi1, hi2, hprev, hNlen, hcalc, hfmem, hflt, hmin⟩ :=
    calculateXTicksIncrementFactor_exists l maxTicks hm h7
  have hN0 : 0 < l.length - i := by
    by_contra hc
    push_neg at hc
    have h0 : l.length - i = 0 := by omega
    rw [h0, getFactors_zero] at hNlen
    simp at hNlen
  obtain ⟨hf0, hfdvd⟩ := (mem_getFactors hN0 f).mp hfmem
  refine ⟨i, f, hi1, hprev, hNlen, hcalc, hf0, hfdvd, hflt, ?_⟩
  intro g hg0 hgdvd hglt
  exact hmin g ((mem_getFactors hN0 g).mpr ⟨hg0, hgdvd⟩) hglt

/-- Witness for C2 (amended) at 10 dates with `maxTicks = 3`. -/
theorem calculateXTicksIncrementFactor_formula_witness :
    7 ≤ ([⟨0, 0⟩, ⟨1, 0⟩, ⟨2, 0⟩, ⟨3, 0⟩, ⟨4, 0⟩, ⟨5, 0⟩, ⟨6, 0⟩, ⟨7, 0⟩, ⟨8, 0⟩,
        ⟨9, 0⟩] : List DateV).length ∧
    2 ≤ 3 ∧
    3 < ([⟨0, 0⟩, ⟨1, 0⟩, ⟨2, 0⟩, ⟨3, 0⟩, ⟨4, 0⟩, ⟨5, 0⟩, ⟨6, 0⟩, ⟨7, 0⟩, ⟨8, 0⟩,
        ⟨9, 0⟩] : List DateV).length ∧
    ∃ i f, 1 ≤ i ∧
      (∀ j, 1 ≤ j → j < i →
        (getFactors (([⟨0, 0⟩, ⟨1, 0⟩, ⟨2, 0⟩, ⟨3, 0⟩, ⟨4, 0⟩, ⟨5, 0⟩, ⟨6, 0⟩, ⟨7, 0⟩,
          ⟨8, 0⟩, ⟨9, 0⟩] : List DateV).length - j)).length ≤ 3) ∧
      3 < (getFactors (([⟨0, 0⟩, ⟨1, 0⟩, ⟨2, 0⟩, ⟨3, 0⟩, ⟨4, 0⟩, ⟨5, 0⟩, ⟨6, 0⟩, ⟨7, 0⟩,
        ⟨8, 0⟩, ⟨9, 0⟩] : List DateV).length - i)).length ∧
      calculateXTicksIncrementFactor
        [⟨0, 0⟩, ⟨1, 0⟩, ⟨2, 0⟩, ⟨3, 0⟩, ⟨4, 0⟩, ⟨5, 0⟩, ⟨6, 0⟩, ⟨7, 0⟩, ⟨8, 0⟩, ⟨9, 0⟩]
        3 = some f ∧
      0 < f ∧
      f ∣ (([⟨0, 0⟩, ⟨1, 0⟩, ⟨2, 0⟩, ⟨3, 0⟩, ⟨4, 0⟩, ⟨5, 0⟩, ⟨6, 0⟩, ⟨7, 0⟩, ⟨8, 0⟩,
        ⟨9, 0⟩] : List DateV).length - i) ∧
      ([⟨0, 0⟩, ⟨1, 0⟩, ⟨2, 0⟩, ⟨3, 0⟩, ⟨4, 0⟩, ⟨5, 0⟩, ⟨6, 0⟩, ⟨7, 0⟩, ⟨8, 0⟩,
        ⟨9, 0⟩] : List DateV).length < 3 * f ∧
      ∀ g, 0 < g →
        g ∣ (([⟨0, 0⟩, ⟨1, 0⟩, ⟨2, 0⟩, ⟨3, 0⟩, ⟨4, 0⟩, ⟨5, 0⟩, ⟨6, 0⟩, ⟨7, 0⟩, ⟨8, 0⟩,
          ⟨9, 0⟩] : List DateV).length - i) →
        ([⟨0, 0⟩, ⟨1, 0⟩, ⟨2, 0⟩, ⟨3, 0⟩, ⟨4, 0⟩, ⟨5, 0⟩, ⟨6, 0⟩, ⟨7, 0⟩, ⟨8, 0⟩,
          ⟨9, 0⟩] : List DateV).length < 3 * g → f ≤ g :=
  ⟨by decide, by decide, by decide,
    calculateXTicksIncrementFactor_formula
      [⟨0, 0⟩, ⟨1, 0⟩, ⟨2, 0⟩, ⟨3, 0⟩, ⟨4, 0⟩, ⟨5, 0⟩, ⟨6, 0⟩, ⟨7, 0⟩, ⟨8, 0⟩, ⟨9, 0⟩]
      3 (by decide) (by decide) (by decide)⟩

/-- Claim C10: whenever `getXTicks` reaches the thinning step
(`maxTicks` comes from `calculateMaxXTicks`, so `maxTicks ≥ 7`, and the
date count exceeds it), the `while` loop of
`calculateXTicksIncrementFactor` terminates on a positive `length - i`
with more than 3 divisors and the divisor search succeeds, returning a
defined factor `f ≥ 1`. -/
theorem calculateXTicksIncrementFactor_total (l : List DateV) (width : ℚ)
    (mode : String) (hlen : calculateMaxXTicks width mode < l.length) :
    ∃ i f, 1 ≤ i ∧ 0 < l.length - i ∧
      3 < (getFactors (l.length - i)).length ∧
      calculateXTicksIncrementFactor l (calculateMaxXTicks width mode) = some f ∧
      1 ≤ f := by
  have h7 := seven_le_calculateMaxXTicks width mode
  obtain ⟨i, f, hi1, hi2, hprev, hNlen, hcalc, hfmem, hflt, hmin⟩ :=
    calculateXTicksIncrementFactor_exists l (calculateMaxXTicks width mode)
      (by omega) (by omega)
  have hN0 : 0 < l.length - i := by
    by_contra hc
    push_neg at hc
    have h0 : l.length - i = 0 := by omega
    rw [h0, getFactors_zero] at hNlen
    simp at hNlen
  exact ⟨i, f, hi1, hN0, hNlen, hcalc, ((mem_getFactors hN0 f).mp hfmem).1⟩

/-- Witness for C10 at 8 concrete dates and a 100px-wide chart. -/
theorem calculateXTicksIncrementFactor_total_witness :
    calculateMaxXTicks 100 "item-comparison" <
      ([⟨0, 0⟩, ⟨1, 0⟩, ⟨2, 0⟩, ⟨3, 0⟩, ⟨4, 0⟩, ⟨5, 0⟩, ⟨6, 0⟩, ⟨7, 0⟩] :
        List DateV).length ∧
    ∃ i f, 1 ≤ i ∧
      0 < ([⟨0, 0⟩, ⟨1, 0⟩, ⟨2, 0⟩, ⟨3, 0⟩, ⟨4, 0⟩, ⟨5, 0⟩, ⟨6, 0⟩, ⟨7, 0⟩] :
        List DateV).length - i ∧
      3 < (getFactors (([⟨0, 0⟩, ⟨1, 0⟩, ⟨2, 0⟩, ⟨3, 0⟩, ⟨4, 0⟩, ⟨5, 0⟩, ⟨6, 0⟩,
        ⟨7, 0⟩] : List DateV).length - i)).length ∧
      calculateXTicksIncrementFactor
        [⟨0, 0⟩, ⟨1, 0⟩, ⟨2, 0⟩, ⟨3, 0⟩, ⟨4, 0⟩, ⟨5, 0⟩, ⟨6, 0⟩, ⟨7, 0⟩]
        (calculateMaxXTicks 100 "item-comparison") = some f ∧
      1 ≤ f :=
  ⟨by decide,
    calculateXTicksIncrementFactor_total
      [⟨0, 0⟩, ⟨1, 0⟩, ⟨2, 0⟩, ⟨3, 0⟩, ⟨4, 0⟩, ⟨5, 0⟩, ⟨6, 0⟩, ⟨7, 0⟩]
      100 "item-comparison" (by decide)⟩

/-!  ## Claim C3: the `calculateMaxXTicks` lookup table -/

/-- Spec-side step function, written from the claim's words: breakpoints
at 783, 1130 and 1365 px; below the first breakpoint 7 points, in the
second bracket 12, and in the two upper brackets time-comparison receives
the larger budget (16 then 31) and item-comparison the smaller (12 then
16). -/
def maxXTicksTable (width : ℚ) (mode : String) : Nat :=
  if width < 783 then 7
  else if width ≤ 1130 then 12
  else if width ≤ 1365 then
    if mode = "time-comparison" then 16 else 12
  else
    if mode = "time-comparison" then 31 else 16

/-- Claim C3: for every width `≥ 0` and mode in
`{item-comparison, time-comparison}`, `calculateMaxXTicks` is exactly the
step function with breakpoints 783/1130/1365 and budgets 7/12/16/31. -/
theorem calculateMaxXTicks_table (width : ℚ) (mode : String) (_hw : 0 ≤ width)
    (hmode : mode = "item-comparison" ∨ mode = "time-comparison") :
    calculateMaxXTicks width mode = maxXTicksTable width mode := by
  unfold calculateMaxXTicks maxXTicksTable smallBreak mediumBreak wideBreak
    smallPoints mediumPoints largePoints mostPoints
  rcases hmode with rfl | rfl <;>
    · split_ifs <;> first | rfl | (exfalso; first | omega | linarith | simp_all)

/-- Witness for C3 at width 1200, mode item-comparison. -/
theorem calculateMaxXTicks_table_witness :
    (0 : ℚ) ≤ 1200 ∧
    ("item-comparison" = "item-comparison" ∨ "item-comparison" = "time-comparison") ∧
    calculateMaxXTicks 1200 "item-comparison" = maxXTicksTable 1200 "item-comparison" :=
  ⟨by norm_num, Or.inl rfl,
    calculateMaxXTicks_table 1200 "item-comparison" (by norm_num) (Or.inl rfl)⟩

/-!  ## Claim C4: the first-date-per-month collapse -/

/-- Spec-side collapse, written from the claim's words: keep index 0 and
every date whose month differs from the month of the *prior kept* date. -/
def keepMonthStartsGo (kept : DateV) : List DateV → List DateV
  | [] => []
  | b :: bs =>
    if b.month ≠ kept.month then b :: keepMonthStartsGo b bs
    else keepMonthStartsGo kept bs

def keepMonthStarts : List DateV → List DateV
  | [] => []
  | a :: rest => a :: keepMonthStartsGo a rest

/-- Spec-side thinning, written from the spec's steps 2–4: return the
dates unchanged when they fit in `maxTicks`, otherwise stride by the
computed increment factor. -/
def thinToMaxTicks (dates : List DateV) (maxTicks : Nat) : List DateV :=
  if dates.length ≤ maxTicks then dates
  else
    match calculateXTicksIncrementFactor dates maxTicks with
    | some f => getXTicksFromIncrementFactor dates f
    | none => dates.take 1

/-- Comparing against the month of the previous array element is the same
as comparing against the month of the previous kept element: a dropped
element has the same month as its own predecessor. -/
theorem firstDatePerMonthGo_eq_keepGo : ∀ (bs : List DateV) (prev kept : DateV),
    prev.month = kept.month → firstDatePerMonthGo prev bs = keepMonthStartsGo kept bs
  | [], _, _, _ => rfl
  | b :: bs, prev, kept, h => by
    rw [firstDatePerMonthGo, keepMonthStartsGo]
    by_cases hb : b.month ≠ prev.month
    · rw [if_pos hb, if_pos (by omega)]
      rw [firstDatePerMonthGo_eq_keepGo bs b b rfl]
      rfl
    · push_neg at hb
      rw [if_neg (by omega), if_neg (by omega), List.nil_append]
      exact firstDatePerMonthGo_eq_keepGo bs b kept (by omega)

theorem getFirstDatePerMonth_eq_keepMonthStarts (l : List DateV) :
    getFirstDatePerMonth l = keepMonthStarts l := by
  cases l with
  | nil => rfl
  | cons a rest =>
    rw [getFirstDatePerMonth, keepMonthStarts]
    rw [firstDatePerMonthGo_eq_keepGo rest a a rfl]

/-- The kept dates have strictly increasing months whenever the input
months are non-decreasing. -/
theorem keepMonthStartsGo_chain : ∀ (bs : List DateV) (kept : DateV),
    List.Chain' (fun a b => a.month ≤ b.month) (kept :: bs) →
    List.Chain' (fun a b => a.month < b.month) (kept :: keepMonthStartsGo kept bs)
  | [], _, _ => List.chain'_singleton _
  | b :: bs, kept, h => by
    rw [List.chain'_cons] at h
    obtain ⟨hkb, hrest⟩ := h
    rw [keepMonthStartsGo]
    by_cases hb : b.month ≠ kept.month
    · rw [if_pos hb, List.chain'_cons]
      exact ⟨by omega, keepMonthStartsGo_chain bs b hrest⟩
    · push_neg at hb
      rw [if_neg (by omega)]
      have hchain : List.Chain' (fun a b => a.month ≤ b.month) (kept :: bs) := by
        cases bs with
        | nil => exact List.chain'_singleton _
        | cons c cs =>
          rw [List.chain'_cons] at hrest ⊢
          exact ⟨by omega, hrest.2⟩
      exact keepMonthStartsGo_chain bs kept hchain

/-- A strictly increasing list of numbers `≤ 11` has at most 12 entries. -/
theorem length_le_twelve_of_chain_lt (ms : List Nat)
    (h : List.Chain' (· < ·) ms) (hb : ∀ x ∈ ms, x ≤ 11) : ms.length ≤ 12 := by
  have hp : ms.Pairwise (· < ·) := List.chain'_iff_pairwise.mp h
  have hnd : ms.Nodup := hp.imp Nat.ne_of_lt
  have hsub : ms.toFinset ⊆ Finset.range 12 := by
    intro x hx
    have := hb x (List.mem_toFinset.mp hx)
    exact Finset.mem_range.mpr (by omega)
  calc ms.length = ms.toFinset.card := (List.toFinset_card_of_nodup hnd).symm
    _ ≤ (Finset.range 12).card := Finset.card_le_card hsub
    _ = 12 := Finset.card_range 12

theorem keepMonthStarts_length_le (l : List DateV)
    (h : List.Chain' (fun a b => a.month ≤ b.month) l)
    (hb : ∀ d ∈ l, d.month ≤ 11) : (keepMonthStarts l).length ≤ 12 := by
  cases l with
  | nil => simp [keepMonthStarts]
  | cons a rest =>
    have hchain := keepMonthStartsGo_chain rest a h
    have hms : List.Chain' (· < ·)
        ((keepMonthStarts (a :: rest)).map (fun d => d.month)) := by
      rw [List.chain'_map]
      exact hchain
    have hmem : ∀ x ∈ (keepMonthStarts (a :: rest)).map (fun d => d.month), x ≤ 11 := by
      intro x hx
      rw [List.mem_map] at hx
      obtain ⟨d, hd, rfl⟩ := hx
      have hdl : d ∈ a :: rest := by
        have hsub := getFirstDatePerMonth_sublist (a :: rest)
        rw [getFirstDatePerMonth_eq_keepMonthStarts] at hsub
        exact hsub.mem hd
      exact hb d hdl
    have := length_le_twelve_of_chain_lt _ hms hmem
    rwa [List.length_map] at this

/-- Claim C4: `getXTicks` collapses to the first date of each month
exactly when the interval is `day` with at least 63 dates or `week` with
at least 9 dates; the collapse keeps index 0 and every date whose month
differs from the prior kept date's month; and a run of daily dates with
non-decreasing calendar months (months `0..11`) — in particular the
concrete 70-day run below — collapses to at most 12 month-start dates
before any further thinning. -/
theorem getXTicks_month_collapse :
    (∀ l : List DateV, getFirstDatePerMonth l = keepMonthStarts l) ∧
    (∀ (l : List DateV) (width : ℚ) (mode interval : String),
      getXTicks l width mode interval =
        thinToMaxTicks
          (if (interval = "day" ∧ 63 ≤ l.length) ∨ (interval = "week" ∧ 9 ≤ l.length)
            then keepMonthStarts l else l)
          (calculateMaxXTicks width mode)) ∧
    (∀ l : List DateV, List.Chain' (fun a b => a.month ≤ b.month) l →
      (∀ d ∈ l, d.month ≤ 11) → (keepMonthStarts l).length ≤ 12) ∧
    (63 ≤ ((List.range 70).map fun i =>
        DateV.mk i (if i < 31 then 7 else if i < 61 then 8 else 9)).length ∧
      (keepMonthStarts ((List.range 70).map fun i =>
        DateV.mk i (if i < 31 then 7 else if i < 61 then 8 else 9))).length ≤ 12) := by
  refine ⟨getFirstDatePerMonth_eq_keepMonthStarts, ?_, keepMonthStarts_length_le,
    by decide, by decide⟩
  intro l width mode interval
  have hcnd : ((dayTicksThreshold ≤ l.length ∧ interval = "day")
      ∨ (weekTicksThreshold ≤ l.length ∧ interval = "week")) ↔
      ((interval = "day" ∧ 63 ≤ l.length) ∨ (interval = "week" ∧ 9 ≤ l.length)) := by
    unfold dayTicksThreshold weekTicksThreshold
    tauto
  have harg : (if (dayTicksThreshold ≤ l.length ∧ interval = "day")
      ∨ (weekTicksThreshold ≤ l.length ∧ interval = "week") then
      getFirstDatePerMonth l else l) =
      (if (interval = "day" ∧ 63 ≤ l.length) ∨ (interval = "week" ∧ 9 ≤ l.length) then
      keepMonthStarts l else l) :=
    if_congr hcnd (getFirstDatePerMonth_eq_keepMonthStarts l) rfl
  rw [getXTicks, thinToMaxTicks]
  rw [harg]

/-- Witness for C4's collapse-size bound at a concrete month-sorted list. -/
theorem getXTicks_month_collapse_witness :
    List.Chain' (fun a b => a.month ≤ b.month)
      ([⟨0, 3⟩, ⟨1, 3⟩, ⟨2, 4⟩, ⟨3, 4⟩, ⟨4, 5⟩] : List DateV) ∧
    (∀ d ∈ ([⟨0, 3⟩, ⟨1, 3⟩, ⟨2, 4⟩, ⟨3, 4⟩, ⟨4, 5⟩] : List DateV), d.month ≤ 11) ∧
    (keepMonthStarts [⟨0, 3⟩, ⟨1, 3⟩, ⟨2, 4⟩, ⟨3, 4⟩, ⟨4, 5⟩]).length ≤ 12 :=
  ⟨by norm_num [List.chain'_cons], by decide,
    getXTicks_month_collapse.2.2.1 [⟨0, 3⟩, ⟨1, 3⟩, ⟨2, 4⟩, ⟨3, 4⟩, ⟨4, 5⟩]
      (by norm_num [List.chain'_cons]) (by decide)⟩

/-!  ## `getDateSpaces`

```js
export const getDateSpaces = ( data, uniqueDates, width, xLineScale ) =>
  uniqueDates.map( ( d, i ) => {
    const datapoints = find( data, { date: d } );
    const xNow = xLineScale( new Date( d ) );
    const xPrev = i >= 1
      ? xLineScale( new Date( uniqueDates[ i - 1 ] ) )
      : xLineScale( new Date( uniqueDates[ 0 ] ) );
    const xNext = i < uniqueDates.length - 1
      ? xLineScale( new Date( uniqueDates[ i + 1 ] ) )
      : xLineScale( new Date( uniqueDates[ uniqueDates.length - 1 ] ) );
    let xWidth = i === 0 ? xNext - xNow : xNow - xPrev;
    const xStart = i === 0 ? 0 : xNow - xWidth / 2;
    xWidth = i === 0 || i === uniqueDates.length - 1 ? xWidth / 2 : xWidth;
    return {
      date: d,
      start: uniqueDates.length > 1 ? xStart : 0,
      width: uniqueDates.length > 1 ? xWidth : width,
      values: Object.keys( datapoints ).filter( key => key !== 'date' ).map( ... ),
    };
  } );
```

A data row is its date plus its per-category entries (`Object.keys`
without `date`); `lodash.find` is `List.find?` (a missing row would make
`Object.keys(undefined)` throw in JS; the model returns no values, which
no claim depends on). -/

structure Row where
  date : DateV
  entries : List (String × ℚ)

structure SpanValue where
  key : String
  value : ℚ
  date : DateV

structure DateSpace where
  date : DateV
  start : ℚ
  width : ℚ
  values : List SpanValue

def getDateSpaces (data : List Row) (uniqueDates : List DateV) (width : ℚ)
    (xLineScale : DateV → ℚ) : List DateSpace :=
  (List.range uniqueDates.length).map fun i =>
    let d := uniqueDates.getD i default
    let xNow := xLineScale d
    let xPrev :=
      if 1 ≤ i then xLineScale (uniqueDates.getD (i - 1) default)
      else xLineScale (uniqueDates.getD 0 default)
    let xNext :=
      if i < uniqueDates.length - 1 then xLineScale (uniqueDates.getD (i + 1) default)
      else xLineScale (uniqueDates.getD (uniqueDates.length - 1) default)
    let xWidth := if i = 0 then xNext - xNow else xNow - xPrev
    let xStart := if i = 0 then 0 else xNow - xWidth / 2
    let xWidth2 := if i = 0 ∨ i = uniqueDates.length - 1 then xWidth / 2 else xWidth
    { date := d
      start := if 1 < uniqueDates.length then xStart else 0
      width := if 1 < uniqueDates.length then xWidth2 else width
      values :=
        match data.find? (fun row => row.date = d) with
        | some row => row.entries.map fun e => ⟨e.1, e.2, d⟩
        | none => [] }

/-- Evaluation of one span of `getDateSpaces` at an in-range index. -/
theorem getDateSpaces_getD (data : List Row) (l : List DateV) (W : ℚ)
    (s : DateV → ℚ) (i : Nat) (hi : i < l.length) (dflt : DateSpace) :
    (getDateSpaces data l W s).getD i dflt =
      { date := l.getD i default
        start :=
          if 1 < l.length then
            if i = 0 then 0
            else s (l.getD i default) -
              (if i = 0 then
                  (if i < l.length - 1 then s (l.getD (i + 1) default)
                    else s (l.getD (l.length - 1) default)) - s (l.getD i default)
                else s (l.getD i default) -
                  (if 1 ≤ i then s (l.getD (i - 1) default)
                    else s (l.getD 0 default))) / 2
          else 0
        width :=
          if 1 < l.length then
            if i = 0 ∨ i = l.length - 1 then
              (if i = 0 then
                  (if i < l.length - 1 then s (l.getD (i + 1) default)
                    else s (l.getD (l.length - 1) default)) - s (l.getD i default)
                else s (l.getD i default) -
                  (if 1 ≤ i then s (l.getD (i - 1) default)
                    else s (l.getD 0 default))) / 2
            else
              (if i = 0 then
                  (if i < l.length - 1 then s (l.getD (i + 1) default)
                    else s (l.getD (l.length - 1) default)) - s (l.getD i default)
                else s (l.getD i default) -
                  (if 1 ≤ i then s (l.getD (i - 1) default)
                    else s (l.getD 0 default)))
          else W
        values :=
          match List.find? (fun row => row.date = l.getD i default) data with
          | some row => row.entries.map fun e => ⟨e.1, e.2, l.getD i default⟩
          | none => [] } := by
  unfold getDateSpaces
  rw [List.getD_eq_getElem?_getD, List.getElem?_map, List.getElem?_range hi]
  rfl

/-- Claim C5, as frozen, fails for a scale mapping (produced by a linear
time scale) of unevenly spaced dates: with dates at times 0, 1, 10 mapped
by `t ↦ 2t` onto `[0, 20]`, span 2 starts at 11 while span 1 ends at 3 —
the spans are not contiguous. -/
theorem getDateSpaces_claim_cex :
    2 ≤ ([⟨0, 0⟩, ⟨1, 0⟩, ⟨10, 0⟩] : List DateV).length ∧
    (fun d : DateV => 2 * (d.time : ℚ)) (([⟨0, 0⟩, ⟨1, 0⟩, ⟨10, 0⟩] :
      List DateV).getD 0 default) = 0 ∧
    (fun d : DateV => 2 * (d.time : ℚ)) (([⟨0, 0⟩, ⟨1, 0⟩, ⟨10, 0⟩] :
      List DateV).getD 2 default) = 20 ∧
    ¬ ((getDateSpaces [] [⟨0, 0⟩, ⟨1, 0⟩, ⟨10, 0⟩] 20
          (fun d : DateV => 2 * (d.time : ℚ))).getD 2 ⟨default, 0, 0, []⟩).start =
        ((getDateSpaces [] [⟨0, 0⟩, ⟨1, 0⟩, ⟨10, 0⟩] 20
          (fun d : DateV => 2 * (d.time : ℚ))).getD 1 ⟨default, 0, 0, []⟩).start +
        ((getDateSpaces [] [⟨0, 0⟩, ⟨1, 0⟩, ⟨10, 0⟩] 20
          (fun d : DateV => 2 * (d.time : ℚ))).getD 1 ⟨default, 0, 0, []⟩).width := by
  refine ⟨by norm_num, by norm_num [List.getD], by norm_num [List.getD], ?_⟩
  rw [getDateSpaces_getD _ _ _ _ 2 (by norm_num) _,
    getDateSpaces_getD _ _ _ _ 1 (by norm_num) _]
  norm_num [List.getD]

/-- Claim C5 (amended: the date spans are contiguous and partition
`[0, chartWidth]` when the pixel positions of consecutive dates are
*equally spaced* — which is how the chart uses them, dates at a fixed
interval under a linear scale mapping the first date to 0 and the last to
the chart width; for unevenly spaced positions the claim fails, see the
counterexample.  The single-date span `{start: 0, width: totalWidth}`
holds as claimed). -/
theorem getDateSpaces_partition :
    (∀ (data : List Row) (l : List DateV) (W g : ℚ) (s : DateV → ℚ)
        (dflt : DateSpace),
      2 ≤ l.length →
      s (l.getD 0 default) = 0 →
      (∀ i, i + 1 < l.length →
        s (l.getD (i + 1) default) - s (l.getD i default) = g) →
      s (l.getD (l.length - 1) default) = W →
      (∀ i, 0 < i → i < l.length →
        ((getDateSpaces data l W s).getD i dflt).start =
          ((getDateSpaces data l W s).getD (i - 1) dflt).start +
            ((getDateSpaces data l W s).getD (i - 1) dflt).width) ∧
      ((getDateSpaces data l W s).getD 0 dflt).start = 0 ∧
      ((getDateSpaces data l W s).getD (l.length - 1) dflt).start +
        ((getDateSpaces data l W s).getD (l.length - 1) dflt).width = W) ∧
    (∀ (data : List Row) (l : List DateV) (W : ℚ) (s : DateV → ℚ)
        (dflt : DateSpace),
      l.length = 1 →
      ((getDateSpaces data l W s).getD 0 dflt).start = 0 ∧
      ((getDateSpaces data l W s).getD 0 dflt).width = W) := by
  constructor
  · intro data l W g s dflt h2 h0 hgap hW
    have h1n : 1 < l.length := by omega
    have span0 : ((getDateSpaces data l W s).getD 0 dflt).start = 0 ∧
        ((getDateSpaces data l W s).getD 0 dflt).width =
          (s (l.getD 1 default) - s (l.getD 0 default)) / 2 := by
      rw [getDateSpaces_getD data l W s 0 (by omega) dflt]
      simp only [if_pos h1n, if_pos rfl, if_pos (show (0 : Nat) < l.length - 1 by omega),
        if_pos (Or.inl rfl : (0 : Nat) = 0 ∨ 0 = l.length - 1), Nat.zero_add]
      simp
    have spanMid : ∀ i, 1 ≤ i → i < l.length - 1 →
        ((getDateSpaces data l W s).getD i dflt).start =
          s (l.getD i default) -
            (s (l.getD i default) - s (l.getD (i - 1) default)) / 2 ∧
        ((getDateSpaces data l W s).getD i dflt).width =
          s (l.getD i default) - s (l.getD (i - 1) default) := by
      intro i hi1 hin
      rw [getDateSpaces_getD data l W s i (by omega) dflt]
      simp only [if_pos h1n, if_neg (show ¬ i = 0 by omega), if_pos hi1,
        if_neg (show ¬(i = 0 ∨ i = l.length - 1) by omega)]
      simp
    have spanLast :
        ((getDateSpaces data l W s).getD (l.length - 1) dflt).start =
          s (l.getD (l.length - 1) default) -
            (s (l.getD (l.length - 1) default) -
              s (l.getD (l.length - 1 - 1) default)) / 2 ∧
        ((getDateSpaces data l W s).getD (l.length - 1) dflt).width =
          (s (l.getD (l.length - 1) default) -
            s (l.getD (l.length - 1 - 1) default)) / 2 := by
      rw [getDateSpaces_getD data l W s (l.length - 1) (by omega) dflt]
      simp only [if_pos h1n, if_neg (show ¬ l.length - 1 = 0 by omega),
        if_pos (show 1 ≤ l.length - 1 by omega),
        if_pos (Or.inr rfl : l.length - 1 = 0 ∨ l.length - 1 = l.length - 1)]
      simp
    refine ⟨?_, span0.1, ?_⟩
    · intro i hi0 hin
      have Ei : s (l.getD i default) - s (l.getD (i - 1) default) = g := by
        have h := hgap (i - 1) (by omega)
        rwa [show i - 1 + 1 = i from by omega] at h
      by_cases hilast : i = l.length - 1
      · subst hilast
        rw [spanLast.1]
        by_cases hi1 : l.length - 1 = 1
        · rw [hi1, span0.1, span0.2]
          rw [hi1] at Ei
          simp only [show (1 : Nat) - 1 = 0 from rfl] at Ei ⊢
          linarith
        · obtain ⟨hm1, hm2⟩ := spanMid (l.length - 1 - 1) (by omega) (by omega)
          rw [hm1, hm2]
          have Ei2 : s (l.getD (l.length - 1 - 1) default) -
              s (l.getD (l.length - 1 - 1 - 1) default) = g := by
            have h := hgap (l.length - 1 - 1 - 1) (by omega)
            rwa [show l.length - 1 - 1 - 1 + 1 = l.length - 1 - 1 from by omega] at h
          linarith
      · have hin' : i < l.length - 1 := by omega
        rw [(spanMid i (by omega) hin').1]
        by_cases hi1 : i = 1
        · subst hi1
          rw [span0.1, span0.2]
          have h01 := hgap 0 (by omega)
          rw [Nat.zero_add] at h01
          linarith
        · obtain ⟨hm1, hm2⟩ := spanMid (i - 1) (by omega) (by omega)
          rw [hm1, hm2]
          have Ei2 : s (l.getD (i - 1) default) -
              s (l.getD (i - 1 - 1) default) = g := by
            have h := hgap (i - 1 - 1) (by omega)
            rwa [show i - 1 - 1 + 1 = i - 1 from by omega] at h
          linarith
    · rw [spanLast.1, spanLast.2]
      linarith
  · intro data l W s dflt h1
    rw [getDateSpaces_getD data l W s 0 (by omega) dflt, h1]
    norm_num

/-- Witness for C5 (amended) with three equally spaced dates on a 20px
axis. -/
theorem getDateSpaces_partition_witness :
    2 ≤ ([⟨0, 0⟩, ⟨1, 0⟩, ⟨2, 0⟩] : List DateV).length ∧
    (fun d : DateV => 10 * (d.time : ℚ)) (([⟨0, 0⟩, ⟨1, 0⟩, ⟨2, 0⟩] :
      List DateV).getD 0 default) = 0 ∧
    (∀ i, i + 1 < ([⟨0, 0⟩, ⟨1, 0⟩, ⟨2, 0⟩] : List DateV).length →
      (fun d : DateV => 10 * (d.time : ℚ)) (([⟨0, 0⟩, ⟨1, 0⟩, ⟨2, 0⟩] :
        List DateV).getD (i + 1) default) -
      (fun d : DateV => 10 * (d.time : ℚ)) (([⟨0, 0⟩, ⟨1, 0⟩, ⟨2, 0⟩] :
        List DateV).getD i default) = 10) ∧
    (fun d : DateV => 10 * (d.time : ℚ)) (([⟨0, 0⟩, ⟨1, 0⟩, ⟨2, 0⟩] :
      List DateV).getD (([⟨0, 0⟩, ⟨1, 0⟩, ⟨2, 0⟩] : List DateV).length - 1)
      default) = 20 ∧
    ((∀ i, 0 < i → i < ([⟨0, 0⟩, ⟨1, 0⟩, ⟨2, 0⟩] : List DateV).length →
        ((getDateSpaces [] [⟨0, 0⟩, ⟨1, 0⟩, ⟨2, 0⟩] 20
            (fun d : DateV => 10 * (d.time : ℚ))).getD i ⟨default, 0, 0, []⟩).start =
          ((getDateSpaces [] [⟨0, 0⟩, ⟨1, 0⟩, ⟨2, 0⟩] 20
            (fun d : DateV => 10 * (d.time : ℚ))).getD (i - 1) ⟨default, 0, 0, []⟩).start +
            ((getDateSpaces [] [⟨0, 0⟩, ⟨1, 0⟩, ⟨2, 0⟩] 20
              (fun d : DateV => 10 * (d.time : ℚ))).getD (i - 1) ⟨default, 0, 0, []⟩).width) ∧
      ((getDateSpaces [] [⟨0, 0⟩, ⟨1, 0⟩, ⟨2, 0⟩] 20
          (fun d : DateV => 10 * (d.time : ℚ))).getD 0 ⟨default, 0, 0, []⟩).start = 0 ∧
      ((getDateSpaces [] [⟨0, 0⟩, ⟨1, 0⟩, ⟨2, 0⟩] 20
          (fun d : DateV => 10 * (d.time : ℚ))).getD
            (([⟨0, 0⟩, ⟨1, 0⟩, ⟨2, 0⟩] : List DateV).length - 1) ⟨default, 0, 0, []⟩).start +
        ((getDateSpaces [] [⟨0, 0⟩, ⟨1, 0⟩, ⟨2, 0⟩] 20
          (fun d : DateV => 10 * (d.time : ℚ))).getD
            (([⟨0, 0⟩, ⟨1, 0⟩, ⟨2, 0⟩] : List DateV).length - 1) ⟨default, 0, 0, []⟩).width = 20) :=
  ⟨by norm_num, by norm_num [List.getD],
    by intro i hi; have hi2 : i = 0 ∨ i = 1 := (by simp at hi; omega); rcases hi2 with rfl | rfl <;> norm_num [List.getD],
    by norm_num [List.getD],
    getDateSpaces_partition.1 [] [⟨0, 0⟩, ⟨1, 0⟩, ⟨2, 0⟩] 20 10
      (fun d : DateV => 10 * (d.time : ℚ)) ⟨default, 0, 0, []⟩
      (by norm_num) (by norm_num [List.getD])
      (by intro i hi; have hi2 : i = 0 ∨ i = 1 := (by simp at hi; omega); rcases hi2 with rfl | rfl <;> norm_num [List.getD])
      (by norm_num [List.getD])⟩

/-!  ## `getYMax`

```js
export const getYMax = lineData => {
  const yMax = 4 / 3 * d3Max( lineData, d => d3Max( d.values.map( date => date.value ) ) );
  const pow3Y = Math.pow( 10, ( ( Math.log( yMax ) * Math.LOG10E + 1 ) | 0 ) - 2 ) * 3;
  return Math.ceil( yMax / pow3Y ) * pow3Y;
};
```

Numbers are idealised as exact rationals.  `Math.log(y) * Math.LOG10E` is
`log₁₀ y`; `x | 0` truncates toward zero, i.e. `⌊x⌋` for `x ≥ 0` and
`⌈x⌉` for `x < 0`.  For `y > 0`, `log₁₀ y + 1 ≥ 0 ↔ y ≥ 1/10`, and
`⌊log₁₀ y⌋ = Int.log 10 y`, `⌈log₁₀ y⌉ = Int.clog 10 y`.  For `y ≤ 0`,
`Math.log` yields `NaN` (`y < 0`) or `-Infinity` (`y = 0`) and `| 0` maps
both to `0`.  A series is its list of numeric values; `d3Max` of a list is
its maximum (`undefined` on an empty list, which d3's outer aggregation
skips), and an `undefined` overall maximum (no data at all) is `none`. -/

/-- Exact value of `( Math.log( yMax ) * Math.LOG10E + 1 ) | 0`. -/
def log10TruncPlusOne (yMax : ℚ) : ℤ :=
  if yMax ≤ 0 then 0
  else if 1 / 10 ≤ yMax then Int.log 10 yMax + 1
  else Int.clog 10 yMax + 1

/-- The body of `getYMax`, applied to the maximum raw value. -/
def getYMaxOfMax (maxValue : ℚ) : ℚ :=
  let yMax : ℚ := 4 / 3 * maxValue
  let pow3Y : ℚ := 10 ^ (log10TruncPlusOne yMax - 2) * 3
  ⌈yMax / pow3Y⌉ * pow3Y

def getYMax (lineData : List (List ℚ)) : Option ℚ :=
  ((lineData.filterMap List.max?).max?).map getYMaxOfMax

theorem clog_ten_one_div_twentyfive : Int.clog 10 ((1 : ℚ) / 25) = -1 := by
  rw [Int.clog_of_right_le_one 10 (by norm_num)]
  norm_num
  exact Nat.log_eq_of_pow_le_of_lt_pow (by norm_num) (by norm_num)

theorem log_ten_one_div_twentyfive : Int.log 10 ((1 : ℚ) / 25) = -2 := by
  rw [Int.log_of_right_le_one 10 (by norm_num)]
  norm_num
  have h1 : Nat.clog 10 25 ≤ 2 :=
    (Nat.le_pow_iff_clog_le (by norm_num : (1 : ℕ) < 10)).mp
      (by norm_num : (25 : ℕ) ≤ 10 ^ 2)
  have h2 : 1 < Nat.clog 10 25 :=
    (Nat.pow_lt_iff_lt_clog (by norm_num : (1 : ℕ) < 10)).mp
      (by norm_num : (10 : ℕ) ^ 1 < 25)
  have h3 : Nat.clog 10 25 = 2 := by omega
  exact_mod_cast h3

/-- Claim C6, as frozen, fails for a small maximum: at raw maximum
`m = 3/100` (scaled `4/100 < 1/10`), the `| 0` truncation toward zero
differs from the claimed `floor`, the code uses step `3·10⁻²` (giving
`0.06`) while the claimed step is `3·10⁻³` (giving `0.042`). -/
theorem getYMax_claim_cex :
    getYMax [[(3 : ℚ) / 100]] = some (3 / 50) ∧
    ((3 : ℚ) / 50) ≠
      ⌈((4 : ℚ) / 3 * (3 / 100)) /
          (3 * 10 ^ (Int.log 10 ((4 : ℚ) / 3 * (3 / 100)) - 1))⌉ *
        (3 * 10 ^ (Int.log 10 ((4 : ℚ) / 3 * (3 / 100)) - 1)) := by
  constructor
  · show Option.map getYMaxOfMax (some ((3 : ℚ) / 100)) = some (3 / 50)
    rw [Option.map_some']
    simp only [getYMaxOfMax, log10TruncPlusOne]
    rw [show (4 : ℚ) / 3 * (3 / 100) = 1 / 25 from by norm_num]
    rw [if_neg (by norm_num : ¬((1 : ℚ) / 25 ≤ 0)),
      if_neg (by norm_num : ¬((1 : ℚ) / 10 ≤ 1 / 25)), clog_ten_one_div_twentyfive]
    norm_num
    rw [show ⌈(4 : ℚ) / 3⌉ = 2 from by norm_num [Int.ceil_eq_iff]]
    norm_num
  · rw [show (4 : ℚ) / 3 * (3 / 100) = 1 / 25 from by norm_num,
      log_ten_one_div_twentyfive]
    norm_num
    rw [show ⌈(40 : ℚ) / 3⌉ = 14 from by norm_num [Int.ceil_eq_iff]]
    norm_num

/-- Claim C6 (amended: the stated nice-rounding formula with
`step = 3 · 10^(⌊log₁₀((4/3)m)⌋ - 1)` matches the code whenever the scaled
maximum `(4/3)·m` is at least `1/10`; below that the code's `| 0`
truncation rounds toward zero instead of down and uses a larger step, see
the counterexample): the result is `(4/3)·m` rounded up to the nearest
multiple of `step`, hence `≥ m` and an integer multiple of `step`. -/
theorem getYMax_nice_rounding (lineData : List (List ℚ)) (m : ℚ)
    (hmax : (lineData.filterMap List.max?).max? = some m)
    (hm : 1 / 10 ≤ 4 / 3 * m) :
    ∃ r, getYMax lineData = some r ∧
      r = ⌈(4 / 3 * m) / (3 * 10 ^ (Int.log 10 (4 / 3 * m) - 1))⌉ *
        (3 * 10 ^ (Int.log 10 (4 / 3 * m) - 1)) ∧
      m ≤ r ∧
      ∃ k : ℤ, r = k * (3 * 10 ^ (Int.log 10 (4 / 3 * m) - 1)) := by
  have hm0 : 0 < (4 : ℚ) / 3 * m := by linarith
  have hmpos : 0 ≤ m := by linarith
  set y : ℚ := 4 / 3 * m with hy
  set e : ℤ := Int.log 10 y - 1 with he
  set p : ℚ := 3 * 10 ^ e with hp
  have hppos : 0 < p := by
    rw [hp]
    positivity
  have hexp : log10TruncPlusOne y = Int.log 10 y + 1 := by
    unfold log10TruncPlusOne
    rw [if_neg (by linarith), if_pos hm]
  have hbody : getYMaxOfMax m = ⌈y / p⌉ * p := by
    simp only [getYMaxOfMax]
    rw [← hy, hexp]
    rw [show Int.log 10 y + 1 - 2 = e from by omega]
    rw [show (10 : ℚ) ^ e * 3 = p from by rw [hp]; ring]
  refine ⟨getYMaxOfMax m, ?_, ?_, ?_, ⟨⌈y / p⌉, ?_⟩⟩
  · unfold getYMax
    rw [hmax, Option.map_some']
  · rw [hbody]
  · rw [hbody]
    have h1 : y / p ≤ (⌈y / p⌉ : ℚ) := Int.le_ceil _
    have h2 : y ≤ (⌈y / p⌉ : ℚ) * p := by
      rw [← div_le_iff₀ hppos] at *
      exact h1
    have h3 : m ≤ y := by rw [hy]; linarith
    linarith
  · rw [hbody]

/-- Witness for C6 (amended) at raw maximum 3. -/
theorem getYMax_nice_rounding_witness :
    (([[(3 : ℚ)]].filterMap List.max?).max? = some 3) ∧
    ((1 : ℚ) / 10 ≤ 4 / 3 * 3) ∧
    ∃ r, getYMax [[(3 : ℚ)]] = some r ∧
      r = ⌈((4 : ℚ) / 3 * 3) / (3 * 10 ^ (Int.log 10 ((4 : ℚ) / 3 * 3) - 1))⌉ *
        (3 * 10 ^ (Int.log 10 ((4 : ℚ) / 3 * 3) - 1)) ∧
      (3 : ℚ) ≤ r ∧
      ∃ k : ℤ, r = k * (3 * 10 ^ (Int.log 10 ((4 : ℚ) / 3 * 3) - 1)) :=
  ⟨rfl, by norm_num, getYMax_nice_rounding [[(3 : ℚ)]] 3 rfl (by norm_num)⟩

/-- Claim C7, as frozen, fails at raw maximum 0: the code returns 0 (not
`NaN`, because `NaN | 0` and `-Infinity | 0 ` are `0`), and 0 is not a
positive result. -/
theorem getYMax_degenerate_cex : getYMax [[(0 : ℚ)]] = some 0 ∧ ¬(0 : ℚ) > 0 := by
  constructor
  · show Option.map getYMaxOfMax (some (0 : ℚ)) = some 0
    rw [Option.map_some']
    simp only [getYMaxOfMax, log10TruncPlusOne]
    norm_num
  · norm_num

/-- Claim C7 (amended: for a zero or negative maximum raw value the code
still returns a well-defined finite number — the `NaN` from `Math.log` is
absorbed by `| 0` — but that number is non-positive, not positive: it is
`⌈(4/3)m / 0.03⌉ · 0.03 ≤ 0`, equal to 0 when the maximum is 0). -/
theorem getYMax_degenerate (lineData : List (List ℚ)) (m : ℚ)
    (hmax : (lineData.filterMap List.max?).max? = some m) (hm : m ≤ 0) :
    ∃ r, getYMax lineData = some r ∧ r ≤ 0 ∧ (m = 0 → r = 0) := by
  have hy : (4 : ℚ) / 3 * m ≤ 0 := by linarith
  have hexp : log10TruncPlusOne (4 / 3 * m) = 0 := by
    unfold log10TruncPlusOne
    rw [if_pos hy]
  have hbody : getYMaxOfMax m = ⌈(4 / 3 * m) / (3 / 100)⌉ * (3 / 100) := by
    simp only [getYMaxOfMax]
    rw [hexp]
    norm_num
  refine ⟨getYMaxOfMax m, ?_, ?_, ?_⟩
  · unfold getYMax
    rw [hmax, Option.map_some']
  · rw [hbody]
    have h1 : (4 : ℚ) / 3 * m / (3 / 100) ≤ 0 := by
      apply div_nonpos_of_nonpos_of_nonneg hy
      norm_num
    have h2 : ⌈(4 / 3 * m : ℚ) / (3 / 100)⌉ ≤ 0 := Int.ceil_le.mpr (by exact_mod_cast h1)
    have h3 : (⌈(4 / 3 * m : ℚ) / (3 / 100)⌉ : ℚ) ≤ 0 := by exact_mod_cast h2
    nlinarith
  · intro hm0
    rw [hbody, hm0]
    norm_num

/-- Witness for C7 (amended) at raw maximum -3. -/
theorem getYMax_degenerate_witness :
    (([[(-3 : ℚ)]].filterMap List.max?).max? = some (-3)) ∧
    ((-3 : ℚ) ≤ 0) ∧
    ∃ r, getYMax [[(-3 : ℚ)]] = some r ∧ r ≤ 0 ∧ ((-3 : ℚ) = 0 → r = 0) :=
  ⟨rfl, by norm_num, getYMax_degenerate [[(-3 : ℚ)]] (-3) rfl (by norm_num)⟩

/-!  ## Tooltip positioning

```js
const calculateTooltipXPosition = (
  elementCoords, chartCoords, tooltipSize, tooltipMargin, elementWidthRatio, tooltipPosition
) => {
  const xPosition =
    elementCoords.left + elementCoords.width * elementWidthRatio + tooltipMargin - chartCoords.left;
  if ( tooltipPosition === 'below' ) {
    return Math.max( tooltipMargin,
      Math.min( xPosition - tooltipSize.width / 2,
        chartCoords.width - tooltipSize.width - tooltipMargin ) );
  }
  if ( xPosition + tooltipSize.width + tooltipMargin > chartCoords.width ) {
    return Math.max( tooltipMargin,
      elementCoords.left + elementCoords.width * ( 1 - elementWidthRatio ) -
        tooltipSize.width - tooltipMargin - chartCoords.left );
  }
  return xPosition;
};
```
(and the analogous `calculateTooltipYPosition`; `calculateTooltipPosition`
fixes `tooltipMargin = 24`, reads the tooltip's measured bounding box —
supplied here as an input — and forces `elementWidthRatio = 0` in `below`
mode, defaulting it to `1`.) -/

structure Rect where
  left : ℚ
  top : ℚ
  width : ℚ
  height : ℚ

structure TooltipSize where
  width : ℚ
  height : ℚ

def calculateTooltipXPosition (elementCoords chartCoords : Rect)
    (tooltipSize : TooltipSize) (tooltipMargin : ℚ) (elementWidthRatio : ℚ)
    (tooltipPosition : String) : ℚ :=
  let xPosition := elementCoords.left + elementCoords.width * elementWidthRatio +
    tooltipMargin - chartCoords.left
  if tooltipPosition = "below" then
    max tooltipMargin (min (xPosition - tooltipSize.width / 2)
      (chartCoords.width - tooltipSize.width - tooltipMargin))
  else if chartCoords.width < xPosition + tooltipSize.width + tooltipMargin then
    max tooltipMargin (elementCoords.left +
      elementCoords.width * (1 - elementWidthRatio) - tooltipSize.width -
      tooltipMargin - chartCoords.left)
  else xPosition

def calculateTooltipYPosition (elementCoords chartCoords : Rect)
    (tooltipSize : TooltipSize) (tooltipMargin : ℚ)
    (tooltipPosition : String) : ℚ :=
  if tooltipPosition = "below" then chartCoords.height
  else
    let yPosition := elementCoords.top + tooltipMargin - chartCoords.top
    if chartCoords.height < yPosition + tooltipSize.height + tooltipMargin then
      max 0 (elementCoords.top - tooltipSize.height - tooltipMargin - chartCoords.top)
    else yPosition

def calculateTooltipPosition (element chart : Rect) (tooltipSize : TooltipSize)
    (tooltipPosition : String) (elementWidthRatio : ℚ := 1) : ℚ × ℚ :=
  let tooltipMargin : ℚ := 24
  let ratio := if tooltipPosition = "below" then 0 else elementWidthRatio
  (calculateTooltipXPosition element chart tooltipSize tooltipMargin ratio
      tooltipPosition,
    calculateTooltipYPosition element chart tooltipSize tooltipMargin
      tooltipPosition)

/-- Claim C8: in `over` mode the tooltip x is the anchor
`elementLeft + elementWidth·ratio + margin − chartLeft` exactly when that
placement fits before the chart's right edge (no clamping), and otherwise
flips to `max margin (elementLeft + elementWidth·(1 − ratio) − tooltipWidth
− margin − chartLeft)`. -/
theorem calculateTooltipXPosition_over (el ch : Rect) (ts : TooltipSize)
    (margin ratio : ℚ) :
    (el.left + el.width * ratio + margin - ch.left + ts.width + margin ≤ ch.width →
      calculateTooltipXPosition el ch ts margin ratio "over" =
        el.left + el.width * ratio + margin - ch.left) ∧
    (ch.width < el.left + el.width * ratio + margin - ch.left + ts.width + margin →
      calculateTooltipXPosition el ch ts margin ratio "over" =
        max margin (el.left + el.width * (1 - ratio) - ts.width - margin - ch.left)) := by
  constructor <;> intro h <;>
    simp only [calculateTooltipXPosition] <;>
    rw [if_neg (by decide : ¬("over" : String) = "below")]
  · rw [if_neg (by linarith)]
  · rw [if_pos (by linarith)]

/-- Witness for C8: an element fully inside the chart and far from the
right edge takes the direct anchor formula, and one hugging the right edge
flips. -/
theorem calculateTooltipXPosition_over_witness :
    ((100 : ℚ) + 50 * 1 + 24 - 0 + 60 + 24 ≤ 500 ∧
      calculateTooltipXPosition ⟨100, 50, 50, 20⟩ ⟨0, 0, 500, 400⟩ ⟨60, 40⟩ 24 1
        "over" = 100 + 50 * 1 + 24 - 0) ∧
    ((500 : ℚ) < 480 + 50 * 1 + 24 - 0 + 60 + 24 ∧
      calculateTooltipXPosition ⟨480, 50, 50, 20⟩ ⟨0, 0, 500, 400⟩ ⟨60, 40⟩ 24 1
        "over" = max 24 (480 + 50 * (1 - 1) - 60 - 24 - 0)) :=
  ⟨⟨by norm_num,
      (calculateTooltipXPosition_over ⟨100, 50, 50, 20⟩ ⟨0, 0, 500, 400⟩ ⟨60, 40⟩
        24 1).1 (by norm_num)⟩,
    ⟨by norm_num,
      (calculateTooltipXPosition_over ⟨480, 50, 50, 20⟩ ⟨0, 0, 500, 400⟩ ⟨60, 40⟩
        24 1).2 (by norm_num)⟩⟩

/-- Claim C9, as frozen, fails for an element outside the chart rectangle:
with sane tooltip/margin sizes (50 + 2·24 ≤ 500), an element at
`left = -1000` in `over` mode yields tooltip `x = -976 < 0`. -/
theorem calculateTooltipPosition_claim_cex :
    (⟨50, 50⟩ : TooltipSize).width + 2 * 24 ≤ (⟨0, 0, 500, 500⟩ : Rect).width ∧
    (⟨50, 50⟩ : TooltipSize).height + 2 * 24 ≤ (⟨0, 0, 500, 500⟩ : Rect).height ∧
    (calculateTooltipPosition ⟨-1000, 100, 0, 0⟩ ⟨0, 0, 500, 500⟩ ⟨50, 50⟩
      "over").1 < 0 := by
  refine ⟨by norm_num, by norm_num, ?_⟩
  simp only [calculateTooltipPosition, calculateTooltipXPosition]
  rw [if_neg (by decide : ¬("over" : String) = "below")]
  rw [if_neg (by decide : ¬("over" : String) = "below")]
  rw [if_neg (by norm_num)]
  norm_num

/-- Claim C9 (amended: the bound `x ∈ [0, chartWidth]`, `y ∈ [0,
chartHeight]` additionally needs the hovered element's rectangle to lie
inside the chart rectangle with non-negative sizes and the anchor ratio in
`[0, 1]` — for elements outside the chart the unclamped `over` anchor
escapes the bounds, see the counterexample). -/
theorem calculateTooltipPosition_bounded (el ch : Rect) (ts : TooltipSize)
    (pos : String) (ratio : ℚ)
    (hin1 : ch.left ≤ el.left) (hin2 : el.left + el.width ≤ ch.left + ch.width)
    (hin3 : ch.top ≤ el.top) (hin4 : el.top + el.height ≤ ch.top + ch.height)
    (hw : 0 ≤ el.width) (hh : 0 ≤ el.height)
    (hr0 : 0 ≤ ratio) (hr1 : ratio ≤ 1)
    (htw : 0 ≤ ts.width) (hth : 0 ≤ ts.height)
    (hsw : ts.width + 2 * 24 ≤ ch.width) (hsh : ts.height + 2 * 24 ≤ ch.height) :
    0 ≤ (calculateTooltipPosition el ch ts pos ratio).1 ∧
    (calculateTooltipPosition el ch ts pos ratio).1 ≤ ch.width ∧
    0 ≤ (calculateTooltipPosition el ch ts pos ratio).2 ∧
    (calculateTooltipPosition el ch ts pos ratio).2 ≤ ch.height := by
  have h24w : (24 : ℚ) ≤ ch.width := by linarith
  have h24h : (24 : ℚ) ≤ ch.height := by linarith
  have hwr0 : 0 ≤ el.width * ratio := mul_nonneg hw hr0
  have hwr1 : el.width * ratio ≤ el.width := mul_le_of_le_one_right hw hr1
  have hwr0' : 0 ≤ el.width * (1 - ratio) := mul_nonneg hw (by linarith)
  have hwr1' : el.width * (1 - ratio) ≤ el.width :=
    mul_le_of_le_one_right hw (by linarith)
  simp only [calculateTooltipPosition, calculateTooltipXPosition,
    calculateTooltipYPosition]
  by_cases hpos : pos = "below"
  · simp only [if_pos hpos]
    refine ⟨le_trans (by norm_num) (le_max_left _ _),
      max_le (by linarith) (le_trans (min_le_right _ _) (by linarith)),
      by linarith, le_refl _⟩
  · simp only [if_neg hpos]
    split_ifs with hx hy hy
    · refine ⟨le_trans (by norm_num) (le_max_left _ _),
        max_le (by linarith) (by linarith), ?_, ?_⟩
      · exact le_trans (by norm_num) (le_max_left _ _)
      · exact max_le (by linarith) (by linarith)
    · have hy' := not_lt.mp hy
      refine ⟨le_trans (by norm_num) (le_max_left _ _),
        max_le (by linarith) (by linarith), by linarith, by linarith⟩
    · have hx' := not_lt.mp hx
      refine ⟨by linarith, by linarith, ?_, ?_⟩
      · exact le_trans (by norm_num) (le_max_left _ _)
      · exact max_le (by linarith) (by linarith)
    · have hx' := not_lt.mp hx
      have hy' := not_lt.mp hy
      exact ⟨by linarith, by linarith, by linarith, by linarith⟩

/-- Witness for C9 (amended) with an element inside the chart. -/
theorem calculateTooltipPosition_bounded_witness :
    ((0 : ℚ) ≤ 100 ∧ (100 : ℚ) + 50 ≤ 0 + 500 ∧ (0 : ℚ) ≤ 100 ∧
      (100 : ℚ) + 20 ≤ 0 + 500 ∧ (0 : ℚ) ≤ 50 ∧ (0 : ℚ) ≤ 20 ∧
      (0 : ℚ) ≤ 1 ∧ (1 : ℚ) ≤ 1 ∧ (0 : ℚ) ≤ 50 ∧ (0 : ℚ) ≤ 50 ∧
      (50 : ℚ) + 2 * 24 ≤ 500 ∧ (50 : ℚ) + 2 * 24 ≤ 500) ∧
    (0 ≤ (calculateTooltipPosition ⟨100, 100, 50, 20⟩ ⟨0, 0, 500, 500⟩ ⟨50, 50⟩
        "over" 1).1 ∧
      (calculateTooltipPosition ⟨100, 100, 50, 20⟩ ⟨0, 0, 500, 500⟩ ⟨50, 50⟩
        "over" 1).1 ≤ (⟨0, 0, 500, 500⟩ : Rect).width ∧
      0 ≤ (calculateTooltipPosition ⟨100, 100, 50, 20⟩ ⟨0, 0, 500, 500⟩ ⟨50, 50⟩
        "over" 1).2 ∧
      (calculateTooltipPosition ⟨100, 100, 50, 20⟩ ⟨0, 0, 500, 500⟩ ⟨50, 50⟩
        "over" 1).2 ≤ (⟨0, 0, 500, 500⟩ : Rect).height) :=
  ⟨by norm_num,
    calculateTooltipPosition_bounded ⟨100, 100, 50, 20⟩ ⟨0, 0, 500, 500⟩ ⟨50, 50⟩
      "over" 1 (by norm_num) (by norm_num) (by norm_num) (by norm_num)
      (by norm_num) (by norm_num) (by norm_num) (by norm_num) (by norm_num)
      (by norm_num) (by norm_num) (by norm_num)⟩

end A8CChart
